import Mathlib

/-!
Verification of the MindSpore tutorial notebooks (`4_dataset.ipynb`, `5_model.ipynb`,
`6_autograd.ipynb`).  The repository defines four pieces of code of its own:

* `Net` (6_autograd.ipynb): `construct(x, y) = matmul(x * z, y)` with a single trainable
  parameter `z = Tensor([1.0])`;
* three variants of `GradNetWrtX` (6_autograd.ipynb): the default `ops.GradOperation()`,
  the `get_by_list=True` variant, and the `sens_param=True` variant;
* `LeNet5` (5_model.ipynb): conv/pool/flatten/dense pipeline (modelled here at the shape
  level, which is what the notebook demonstrates and what claim C5 is about);
* `DatasetGenerator` (4_dataset.ipynb): `__len__` and `__getitem__` over two fixed arrays
  of shape (5, 2) and (5, 1).

Tensors are embedded as matrices of exact rationals.  The external framework's operators
(`ops.MatMul`, broadcast multiply, `ops.GradOperation`, layer shape contracts, numpy
indexing) live in the `FW` namespace; every definition there is modelled from the
framework's documented contract, since the framework itself is an external dependency
and not part of the repository.  The networks of this repository are affine in every
input entry and in the parameter `z`, so the unit-increment difference used to define
the gradient operator is their exact derivative.
-/

set_option maxHeartbeats 1000000

open Matrix BigOperators

/-- Modelled from the spec: the framework's `ops.MatMul` operator, matrix multiplication
over exact rationals. -/
def FW.matmul {m k n : Nat} (a : Matrix (Fin m) (Fin k) ℚ) (b : Matrix (Fin k) (Fin n) ℚ) :
    Matrix (Fin m) (Fin n) ℚ :=
  a * b

/-- Modelled from the spec: the framework's broadcast elementwise product of a matrix with
a one-element parameter tensor `z` (the expression `x * self.z` in `Net.construct`). -/
def FW.mulBroadcast {m k : Nat} (x : Matrix (Fin m) (Fin k) ℚ) (z : ℚ) :
    Matrix (Fin m) (Fin k) ℚ :=
  fun i j => x i j * z

/-- Matrix that is 1 at entry `(i, j)` and 0 elsewhere: the unit perturbation direction
used to express the exact derivative of a network that is affine in each entry. -/
def FW.oneAt {m k : Nat} (i : Fin m) (j : Fin k) : Matrix (Fin m) (Fin k) ℚ :=
  fun p q => if p = i ∧ q = j then 1 else 0

/-- Modelled from the spec: the derivative of the network output with respect to entry
`(i, j)` of its first input.  The networks in this repository are affine in each input
entry, so the unit-increment difference is their exact derivative. -/
def FW.deltaX {m k mo no : Nat}
    (f : Matrix (Fin m) (Fin k) ℚ → Matrix (Fin mo) (Fin no) ℚ)
    (x : Matrix (Fin m) (Fin k) ℚ) (i : Fin m) (j : Fin k) :
    Matrix (Fin mo) (Fin no) ℚ :=
  f (x + FW.oneAt i j) - f x

/-- Modelled from the spec: `ops.GradOperation(sens_param=True)` applied to a network and
evaluated at `(x, sens)`: the gradient of the network with respect to its first input,
scaled by the output-sensitivity matrix `sens`. -/
def FW.gradWithSens {m k mo no : Nat}
    (f : Matrix (Fin m) (Fin k) ℚ → Matrix (Fin mo) (Fin no) ℚ)
    (x : Matrix (Fin m) (Fin k) ℚ) (sens : Matrix (Fin mo) (Fin no) ℚ) :
    Matrix (Fin m) (Fin k) ℚ :=
  fun i j => ∑ p, ∑ q, sens p q * FW.deltaX f x i j p q

/-- Modelled from the spec: the all-ones matrix, the output sensitivity that the default
(sens-less) gradient operation uses. -/
def FW.ones (mo no : Nat) : Matrix (Fin mo) (Fin no) ℚ :=
  fun _ _ => 1

/-- Modelled from the spec: `ops.GradOperation()` with all default flags: the derivative
with respect to the first input only, with all-ones output sensitivity. -/
def FW.gradFirstInput {m k mo no : Nat}
    (f : Matrix (Fin m) (Fin k) ℚ → Matrix (Fin mo) (Fin no) ℚ)
    (x : Matrix (Fin m) (Fin k) ℚ) :
    Matrix (Fin m) (Fin k) ℚ :=
  FW.gradWithSens f x (FW.ones mo no)

/-- Modelled from the spec: `ops.GradOperation(get_by_list=True)` for a single scalar
parameter: the sum over all output entries of the derivative with respect to that
parameter (all-ones sensitivity).  The networks here are affine in the parameter, so the
unit-increment difference is exact. -/
def FW.gradByParam {mo no : Nat} (f : ℚ → Matrix (Fin mo) (Fin no) ℚ) (z : ℚ) : ℚ :=
  ∑ p, ∑ q, (f (z + 1) - f z) p q

/-- Net.construct from 6_autograd.ipynb: `x = x * self.z; out = self.matmul(x, y)`. -/
def Net.construct {m k n : Nat} (z : ℚ) (x : Matrix (Fin m) (Fin k) ℚ)
    (y : Matrix (Fin k) (Fin n) ℚ) : Matrix (Fin m) (Fin n) ℚ :=
  let x1 := FW.mulBroadcast x z
  FW.matmul x1 y

/-- Net's initial parameter value: `z = Parameter(Tensor(np.array([1.0])))`. -/
def Net.zInit : ℚ := 1

/-- Net's trainable parameters: the single parameter `z`. -/
def Net.trainableParams (z : ℚ) : List ℚ :=
  [z]

/-- GradNetWrtX.construct with the default `ops.GradOperation()` (first variant in
6_autograd.ipynb): the gradient of the wrapped net with respect to the first input. -/
def GradNetWrtX.construct {m k n : Nat} (z : ℚ) (x : Matrix (Fin m) (Fin k) ℚ)
    (y : Matrix (Fin k) (Fin n) ℚ) : Matrix (Fin m) (Fin k) ℚ :=
  FW.gradFirstInput (fun a => Net.construct z a y) x

/-- GradNetWrtX.construct of the `sens_param=True` variant (third variant in
6_autograd.ipynb); `sens` is the stored `grad_wrt_output` field, which the class passes
as the third argument of the gradient function. -/
def GradNetWrtXSens.construct {m k n : Nat} (z : ℚ) (x : Matrix (Fin m) (Fin k) ℚ)
    (y : Matrix (Fin k) (Fin n) ℚ) (sens : Matrix (Fin m) (Fin n) ℚ) :
    Matrix (Fin m) (Fin k) ℚ :=
  FW.gradWithSens (fun a => Net.construct z a y) x sens

/-- GradNetWrtX.construct of the `get_by_list=True` variant (second variant in
6_autograd.ipynb): one gradient entry per trainable parameter of the wrapped net. -/
def GradNetWrtXByList.construct {m k n : Nat} (z : ℚ) (x : Matrix (Fin m) (Fin k) ℚ)
    (y : Matrix (Fin k) (Fin n) ℚ) : List ℚ :=
  (Net.trainableParams z).map (fun zp => FW.gradByParam (fun a => Net.construct a x y) zp)

/-- The example input `x` of 6_autograd.ipynb, as exact rationals. -/
def xEx : Matrix (Fin 2) (Fin 3) ℚ :=
  Matrix.of ![![0.8, 0.6, 0.2], ![1.8, 1.3, 1.1]]

/-- The example input `y` of 6_autograd.ipynb, as exact rationals. -/
def yEx : Matrix (Fin 3) (Fin 3) ℚ :=
  Matrix.of ![![0.11, 3.3, 1.1], ![1.1, 0.2, 1.4], ![1.1, 2.2, 0.3]]

/-- The `grad_wrt_output` sensitivity stored by the `sens_param=True` variant. -/
def sensEx : Matrix (Fin 2) (Fin 3) ℚ :=
  Matrix.of ![![0.1, 0.6, 0.2], ![0.8, 1.3, 1.1]]

/-! Shape-level model of the 5_model.ipynb layers.  The notebook demonstrates each layer's
shape contract on concrete inputs; the contracts below are the framework's documented
shape semantics for the flags LeNet5 uses. -/

/-- Modelled from the spec: the shape contract of `nn.Conv2d(inC, outC, k, pad_mode='valid')`
on an NCHW tensor: valid padding maps spatial size `h` to `h - k + 1`, and requires the
channel count to match and the kernel to fit. -/
def FW.conv2dValidShape (inC outC k : Nat) (s : Nat × Nat × Nat × Nat) :
    Option (Nat × Nat × Nat × Nat) :=
  match s with
  | (n, c, h, w) =>
    if c = inC ∧ k ≤ h ∧ k ≤ w then some (n, outC, h - k + 1, w - k + 1) else none

/-- Modelled from the spec: the shape contract of `nn.MaxPool2d(kernel_size=k, stride=st)`
on an NCHW tensor: spatial size `h` maps to `(h - k) / st + 1`. -/
def FW.maxPool2dShape (k st : Nat) (s : Nat × Nat × Nat × Nat) :
    Option (Nat × Nat × Nat × Nat) :=
  match s with
  | (n, c, h, w) =>
    if k ≤ h ∧ k ≤ w ∧ 0 < st then some (n, c, (h - k) / st + 1, (w - k) / st + 1) else none

/-- Modelled from the spec: the shape contract of `nn.ReLU()`: elementwise, so the shape
is unchanged. -/
def FW.reluShape {α : Type} (s : α) : α :=
  s

/-- Modelled from the spec: the shape contract of `nn.Flatten()`: an NCHW tensor becomes
an `(N, C*H*W)` matrix. -/
def FW.flattenShape (s : Nat × Nat × Nat × Nat) : Nat × Nat :=
  match s with
  | (n, c, h, w) => (n, c * h * w)

/-- Modelled from the spec: the shape contract of `nn.Dense(inF, outF)`: requires the
feature count to equal `inF` and produces `(N, outF)`. -/
def FW.denseShape (inF outF : Nat) (s : Nat × Nat) : Option (Nat × Nat) :=
  match s with
  | (n, f) => if f = inF then some (n, outF) else none

/-- LeNet5.construct of 5_model.ipynb at the shape level: the layers of `__init__` applied
in the order of `construct` (conv1, relu, pool, conv2, relu, pool, flatten, fc1, relu,
fc2, relu, fc3). -/
def LeNet5.constructShape (numClass numChannel : Nat) (s0 : Nat × Nat × Nat × Nat) :
    Option (Nat × Nat) :=
  (FW.conv2dValidShape numChannel 6 5 s0).bind fun s1 =>
  (FW.maxPool2dShape 2 2 (FW.reluShape s1)).bind fun s2 =>
  (FW.conv2dValidShape 6 16 5 s2).bind fun s3 =>
  (FW.maxPool2dShape 2 2 (FW.reluShape s3)).bind fun s4 =>
  (FW.denseShape (16 * 5 * 5) 120 (FW.flattenShape s4)).bind fun s5 =>
  (FW.denseShape 120 84 (FW.reluShape s5)).bind fun s6 =>
  FW.denseShape 84 numClass (FW.reluShape s6)

/-! Model of DatasetGenerator (4_dataset.ipynb). -/

/-- Modelled from the spec: the length of the leading axis of a numpy array
(`len(self.data)` for an array of shape `(n, ...)`). -/
def FW.npLen {n : Nat} {α : Type} (_ : Fin n → α) : Nat :=
  n

/-- Modelled from the spec: numpy integer indexing on the leading axis of an array with
`n` rows: a negative index `i` means `i + n`, the result index must then lie in
`[0, n)`, and any other index raises IndexError (here: `none`). -/
def FW.npGet {n : Nat} {α : Type} (arr : Fin n → α) (i : Int) : Option α :=
  let j : Int := if i < 0 then i + n else i
  if h : 0 ≤ j ∧ j < (n : Int) then some (arr ⟨j.toNat, by omega⟩) else none

/-- DatasetGenerator's state after `__init__`: `self.data = np.random.sample((5, 2))` and
`self.label = np.random.sample((5, 1))`, two fixed arrays with 5 rows each.  The random
values themselves are framework output, so the rows are abstract here. -/
structure DatasetGenerator where
  data : Fin 5 → ℚ × ℚ
  label : Fin 5 → ℚ

/-- DatasetGenerator.__len__: `len(self.data)`. -/
def DatasetGenerator.len (g : DatasetGenerator) : Nat :=
  FW.npLen g.data

/-- DatasetGenerator.__getitem__: `return self.data[index], self.label[index]`; an
IndexError from either numpy indexing propagates (here: `none`). -/
def DatasetGenerator.getitem (g : DatasetGenerator) (i : Int) : Option ((ℚ × ℚ) × ℚ) :=
  (FW.npGet g.data i).bind fun d => (FW.npGet g.label i).map fun l => (d, l)

/-! Error-propagation model (claim C7).  The repository's functions are straight-line
sequences of framework calls; here each framework call is an arbitrary fallible
operation returning `Except`, and sequencing is the Python call-and-propagate
discipline: a raised exception aborts the rest of the body and surfaces unchanged. -/

/-- Net.construct with fallible framework calls: `x = x * self.z; out = self.matmul(x, y)`,
where each call may raise. -/
def Net.constructE {ε α β γ δ : Type} (mulZ : α → Except ε β) (matmulOp : β → γ → Except ε δ)
    (x : α) (y : γ) : Except ε δ :=
  (mulZ x).bind fun x1 => matmulOp x1 y

/-- GradNetWrtX.construct with a fallible framework gradient function:
`gradient_function = self.grad_op(self.net); return gradient_function(x, y)`. -/
def GradNetWrtX.constructE {ε α β γ : Type} (gradientFunction : α → β → Except ε γ)
    (x : α) (y : β) : Except ε γ :=
  gradientFunction x y

/-- DatasetGenerator.__getitem__ with fallible numpy indexing:
`return self.data[index], self.label[index]`. -/
def DatasetGenerator.getitemE {ε α β : Type} (indexData : Int → Except ε α)
    (indexLabel : Int → Except ε β) (i : Int) : Except ε (α × β) :=
  (indexData i).bind fun d => (indexLabel i).bind fun l => Except.ok (d, l)

/-! Trace model (claim C8).  Each framework call is instrumented to append its name to a
log; the repository code itself contains no branch, so the log it produces is the same
on every run that completes. -/

/-- Application of one framework operation together with its log entry. -/
def FW.tracedApp {α β : Type} (tag : String) (f : α → β) (s : α × List String) :
    β × List String :=
  (f s.1, s.2 ++ [tag])

/-- Net.construct with instrumented framework calls, in source order. -/
def Net.constructTraced {α β γ δ : Type} (mulZ : α → β) (matmulOp : β → γ → δ)
    (x : α) (y : γ) : δ × List String :=
  let s1 := FW.tracedApp "mul_z" mulZ (x, [])
  (FW.tracedApp "matmul" (fun b => matmulOp b y) s1)

/-- LeNet5.construct with instrumented framework calls, in source order. -/
def LeNet5.constructTraced {α : Type}
    (conv1 conv2 fc1 fc2 fc3 relu maxPool2d flatten : α → α) (x : α) :
    α × List String :=
  FW.tracedApp "fc3" fc3
    (FW.tracedApp "relu" relu
      (FW.tracedApp "fc2" fc2
        (FW.tracedApp "relu" relu
          (FW.tracedApp "fc1" fc1
            (FW.tracedApp "flatten" flatten
              (FW.tracedApp "max_pool2d" maxPool2d
                (FW.tracedApp "relu" relu
                  (FW.tracedApp "conv2" conv2
                    (FW.tracedApp "max_pool2d" maxPool2d
                      (FW.tracedApp "relu" relu
                        (FW.tracedApp "conv1" conv1 (x, []))))))))))))

/-- DatasetGenerator.__getitem__ with instrumented fallible numpy indexing: on an
IndexError from the first indexing, the second is never attempted. -/
def DatasetGenerator.getitemTraced {ε α β : Type} (indexData : Int → Except ε α)
    (indexLabel : Int → Except ε β) (i : Int) : Except ε (α × β) × List String :=
  match indexData i with
  | Except.error e => (Except.error e, ["data.index"])
  | Except.ok d =>
    match indexLabel i with
    | Except.error e => (Except.error e, ["data.index", "label.index"])
    | Except.ok l => (Except.ok (d, l), ["data.index", "label.index"])

/-! State-passing model (claim C10).  The wrapped `Net`'s mutable state is its single
parameter `z`; every framework call the repository makes reads the state and returns it
(the framework's gradient computation reads weights but assigns none, and the repository
code contains no assignment to `self.net.z`). -/

/-- The wrapped Net's parameter state. -/
structure NetState where
  z : ℚ

/-- State-passing `x * self.z`: reads the parameter `z`, writes nothing. -/
def FW.mulBroadcastS {m k : Nat} (s : NetState) (x : Matrix (Fin m) (Fin k) ℚ) :
    Matrix (Fin m) (Fin k) ℚ × NetState :=
  (FW.mulBroadcast x s.z, s)

/-- State-passing `self.matmul(a, b)`: touches no parameter. -/
def FW.matmulS {m k n : Nat} (s : NetState) (a : Matrix (Fin m) (Fin k) ℚ)
    (b : Matrix (Fin k) (Fin n) ℚ) : Matrix (Fin m) (Fin n) ℚ × NetState :=
  (FW.matmul a b, s)

/-- Net.construct threading the parameter state through both framework calls. -/
def Net.constructRun {m k n : Nat} (s : NetState) (x : Matrix (Fin m) (Fin k) ℚ)
    (y : Matrix (Fin k) (Fin n) ℚ) : Matrix (Fin m) (Fin n) ℚ × NetState :=
  let r1 := FW.mulBroadcastS s x
  FW.matmulS r1.2 r1.1 y

/-- GradNetWrtX.construct threading the wrapped net's state: the gradient function
differentiates the net's forward run, and the state after the call is the state the
forward run returns. -/
def GradNetWrtX.constructRun {m k n : Nat} (s : NetState) (x : Matrix (Fin m) (Fin k) ℚ)
    (y : Matrix (Fin k) (Fin n) ℚ) : Matrix (Fin m) (Fin k) ℚ × NetState :=
  (FW.gradFirstInput (fun a => (Net.constructRun s a y).1) x, (Net.constructRun s x y).2)

/-! Spec-side compositions (claim C4): each repository function restated as a direct
composition of `FW` operations, following the spec's words that everything observable is
framework output. -/

/-- Composition of framework operations that the spec says `Net.construct` is. -/
def SpecComp.net {m k n : Nat} (z : ℚ) (x : Matrix (Fin m) (Fin k) ℚ)
    (y : Matrix (Fin k) (Fin n) ℚ) : Matrix (Fin m) (Fin n) ℚ :=
  FW.matmul (FW.mulBroadcast x z) y

/-- Composition of framework operations that the spec says `GradNetWrtX.construct` is. -/
def SpecComp.gradNetWrtX {m k n : Nat} (z : ℚ) (x : Matrix (Fin m) (Fin k) ℚ)
    (y : Matrix (Fin k) (Fin n) ℚ) : Matrix (Fin m) (Fin k) ℚ :=
  FW.gradFirstInput (fun a => FW.matmul (FW.mulBroadcast a z) y) x

/-- Composition of framework shape contracts that the spec says `LeNet5.construct` is. -/
def SpecComp.lenet5Shape (numClass numChannel : Nat) (s0 : Nat × Nat × Nat × Nat) :
    Option (Nat × Nat) :=
  (FW.conv2dValidShape numChannel 6 5 s0).bind fun s1 =>
  (FW.maxPool2dShape 2 2 (FW.reluShape s1)).bind fun s2 =>
  (FW.conv2dValidShape 6 16 5 s2).bind fun s3 =>
  (FW.maxPool2dShape 2 2 (FW.reluShape s3)).bind fun s4 =>
  (FW.denseShape (16 * 5 * 5) 120 (FW.flattenShape s4)).bind fun s5 =>
  (FW.denseShape 120 84 (FW.reluShape s5)).bind fun s6 =>
  FW.denseShape 84 numClass (FW.reluShape s6)

/-- Composition of framework operations that the spec says `DatasetGenerator.__len__` is. -/
def SpecComp.datasetLen (g : DatasetGenerator) : Nat :=
  FW.npLen g.data

/-- Composition of framework operations that the spec says `DatasetGenerator.__getitem__`
is. -/
def SpecComp.datasetGetitem (g : DatasetGenerator) (i : Int) : Option ((ℚ × ℚ) × ℚ) :=
  (FW.npGet g.data i).bind fun d => (FW.npGet g.label i).map fun l => (d, l)

/-! Helper lemmas. -/

lemma FW.oneAt_mul_apply {m k n : Nat} (i : Fin m) (j : Fin k)
    (y : Matrix (Fin k) (Fin n) ℚ) (p : Fin m) (q : Fin n) :
    (FW.oneAt i j * y) p q = if p = i then y j q else 0 := by
  classical
  simp only [Matrix.mul_apply, FW.oneAt]
  by_cases hp : p = i
  · subst hp
    rw [Finset.sum_eq_single j]
    · simp
    · intro r _ hr
      simp [hr]
    · intro h
      exact absurd (Finset.mem_univ j) h
  · simp [hp]

lemma net_deltaX {m k n : Nat} (z : ℚ) (x : Matrix (Fin m) (Fin k) ℚ)
    (y : Matrix (Fin k) (Fin n) ℚ) (i : Fin m) (j : Fin k) (p : Fin m) (q : Fin n) :
    FW.deltaX (fun a => Net.construct z a y) x i j p q = if p = i then z * y j q else 0 := by
  classical
  simp only [FW.deltaX, Net.construct, FW.matmul, FW.mulBroadcast, Matrix.sub_apply,
    Matrix.mul_apply]
  rw [← Finset.sum_sub_distrib]
  have hterm : ∀ r : Fin k,
      (x + FW.oneAt i j) p r * z * y r q - x p r * z * y r q
        = FW.oneAt i j p r * z * y r q := by
    intro r
    have hadd : (x + FW.oneAt i j) p r = x p r + FW.oneAt i j p r := rfl
    rw [hadd]
    ring
  rw [Finset.sum_congr rfl fun r _ => hterm r]
  simp only [FW.oneAt]
  by_cases hp : p = i
  · subst hp
    rw [Finset.sum_eq_single j]
    · simp [mul_comm]
    · intro r _ hr
      simp [hr]
    · intro h
      exact absurd (Finset.mem_univ j) h
  · simp [hp]

lemma gradDefault_eq {m k n : Nat} (z : ℚ) (x : Matrix (Fin m) (Fin k) ℚ)
    (y : Matrix (Fin k) (Fin n) ℚ) (i : Fin m) (j : Fin k) :
    GradNetWrtX.construct z x y i j = z * ∑ q, y j q := by
  classical
  simp only [GradNetWrtX.construct, FW.gradFirstInput, FW.gradWithSens, FW.ones, one_mul,
    net_deltaX]
  have hrow : ∀ p : Fin m, (∑ q, if p = i then z * y j q else 0)
      = if p = i then ∑ q, z * y j q else 0 := by
    intro p
    split
    · rfl
    · simp
  rw [Finset.sum_congr rfl fun p _ => hrow p]
  rw [Finset.sum_ite_eq' Finset.univ i fun _ => ∑ q, z * y j q]
  simp [Finset.mul_sum]

lemma gradSens_eq {m k n : Nat} (z : ℚ) (x : Matrix (Fin m) (Fin k) ℚ)
    (y : Matrix (Fin k) (Fin n) ℚ) (sens : Matrix (Fin m) (Fin n) ℚ)
    (i : Fin m) (j : Fin k) :
    GradNetWrtXSens.construct z x y sens i j = ∑ q, sens i q * (z * y j q) := by
  classical
  simp only [GradNetWrtXSens.construct, FW.gradWithSens, net_deltaX, mul_ite, mul_zero]
  have hrow : ∀ p : Fin m, (∑ q, if p = i then sens p q * (z * y j q) else 0)
      = if p = i then ∑ q, sens p q * (z * y j q) else 0 := by
    intro p
    split
    · rfl
    · simp
  rw [Finset.sum_congr rfl fun p _ => hrow p]
  rw [Finset.sum_ite_eq' Finset.univ i fun p => ∑ q, sens p q * (z * y j q)]
  simp

lemma gradByList_eq {m k n : Nat} (z : ℚ) (x : Matrix (Fin m) (Fin k) ℚ)
    (y : Matrix (Fin k) (Fin n) ℚ) :
    GradNetWrtXByList.construct z x y = [∑ p, ∑ q, FW.matmul x y p q] := by
  simp only [GradNetWrtXByList.construct, Net.trainableParams, List.map]
  congr 1
  simp only [FW.gradByParam]
  apply Finset.sum_congr rfl
  intro p _
  apply Finset.sum_congr rfl
  intro q _
  simp only [Net.construct, FW.matmul, FW.mulBroadcast, Matrix.sub_apply, Matrix.mul_apply]
  rw [← Finset.sum_sub_distrib]
  apply Finset.sum_congr rfl
  intro r _
  ring

/-! Claim theorems. -/

/-- C1: with the default flags of `ops.GradOperation()`, `GradNetWrtX` computes the
derivative of `f(x, y) = (x * z) @ y` with respect to the first input `x` only: the
result has the shape of `x` (here: the type `Matrix (Fin m) (Fin k) ℚ` of `x`), its
entry `(i, j)` equals `z` times the sum of row `j` of `y`, and for the notebook's
example inputs every row of the result is exactly `(4.51, 2.7, 3.6)` in rational
arithmetic. -/
theorem gradNetWrtX_default_correct :
    (∀ (m k n : Nat) (z : ℚ) (x : Matrix (Fin m) (Fin k) ℚ) (y : Matrix (Fin k) (Fin n) ℚ)
        (i : Fin m) (j : Fin k),
      GradNetWrtX.construct z x y i j = z * ∑ q, y j q) ∧
    (∀ (i : Fin 2) (j : Fin 3),
      GradNetWrtX.construct Net.zInit xEx yEx i j = ![(4.51 : ℚ), 2.7, 3.6] j) := by
  constructor
  · intro m k n z x y i j
    exact gradDefault_eq z x y i j
  · intro i j
    rw [gradDefault_eq]
    fin_cases j <;>
      norm_num [Net.zInit, yEx, Fin.sum_univ_succ, Matrix.cons_val_zero, Matrix.cons_val_one,
        Matrix.head_cons]

/-- C2: with `sens_param=True`, the gradient of `f(x, y) = (x * z) @ y` with respect to
`x` under sensitivity matrix `S` equals `(S @ transpose(y)) * z`, the gradient is linear
in `S` (additive and homogeneous), and taking `S` to be the all-ones matrix reproduces
exactly the result of the default sens-less wrapper on the same `x, y`. -/
theorem gradNetWrtX_sens_correct :
    (∀ (m k n : Nat) (z : ℚ) (x : Matrix (Fin m) (Fin k) ℚ) (y : Matrix (Fin k) (Fin n) ℚ)
        (s : Matrix (Fin m) (Fin n) ℚ) (i : Fin m) (j : Fin k),
      GradNetWrtXSens.construct z x y s i j = FW.matmul s y.transpose i j * z) ∧
    (∀ (m k n : Nat) (z : ℚ) (x : Matrix (Fin m) (Fin k) ℚ) (y : Matrix (Fin k) (Fin n) ℚ)
        (s t : Matrix (Fin m) (Fin n) ℚ),
      GradNetWrtXSens.construct z x y (s + t)
        = GradNetWrtXSens.construct z x y s + GradNetWrtXSens.construct z x y t) ∧
    (∀ (m k n : Nat) (z : ℚ) (x : Matrix (Fin m) (Fin k) ℚ) (y : Matrix (Fin k) (Fin n) ℚ)
        (c : ℚ) (s : Matrix (Fin m) (Fin n) ℚ),
      GradNetWrtXSens.construct z x y (c • s) = c • GradNetWrtXSens.construct z x y s) ∧
    (∀ (m k n : Nat) (z : ℚ) (x : Matrix (Fin m) (Fin k) ℚ) (y : Matrix (Fin k) (Fin n) ℚ),
      GradNetWrtXSens.construct z x y (FW.ones m n) = GradNetWrtX.construct z x y) := by
  refine ⟨?_, ?_, ?_, ?_⟩
  · intro m k n z x y s i j
    rw [gradSens_eq]
    simp only [FW.matmul, Matrix.mul_apply, Matrix.transpose_apply, Finset.sum_mul]
    apply Finset.sum_congr rfl
    intro q _
    ring
  · intro m k n z x y s t
    funext i j
    have h1 := gradSens_eq z x y (s + t) i j
    have h2 := gradSens_eq z x y s i j
    have h3 := gradSens_eq z x y t i j
    have hadd : (GradNetWrtXSens.construct z x y s + GradNetWrtXSens.construct z x y t) i j
        = GradNetWrtXSens.construct z x y s i j + GradNetWrtXSens.construct z x y t i j := rfl
    rw [hadd, h1, h2, h3, ← Finset.sum_add_distrib]
    apply Finset.sum_congr rfl
    intro q _
    have hst : (s + t) i q = s i q + t i q := rfl
    rw [hst]
    ring
  · intro m k n z x y c s
    funext i j
    have h1 := gradSens_eq z x y (c • s) i j
    have h2 := gradSens_eq z x y s i j
    have hsmul : (c • GradNetWrtXSens.construct z x y s) i j
        = c * GradNetWrtXSens.construct z x y s i j := rfl
    rw [hsmul, h1, h2, Finset.mul_sum]
    apply Finset.sum_congr rfl
    intro q _
    have hcs : (c • s) i q = c * s i q := rfl
    rw [hcs]
    ring
  · intro m k n z x y
    funext i j
    rw [gradSens_eq, gradDefault_eq, Finset.mul_sum]
    apply Finset.sum_congr rfl
    intro q _
    simp [FW.ones]

/-- C3: with `get_by_list=True` applied to the net's trainable parameters, `GradNetWrtX`
returns a tuple with one entry per trainable parameter; for `f(x, y) = (x * z) @ y` the
derivative with respect to `z` is the sum of all entries of `x @ y`, and for the example
inputs this value is exactly `21.536` in rational arithmetic. -/
theorem gradNetWrtX_by_list_correct :
    (∀ (m k n : Nat) (z : ℚ) (x : Matrix (Fin m) (Fin k) ℚ) (y : Matrix (Fin k) (Fin n) ℚ),
      (GradNetWrtXByList.construct z x y).length = (Net.trainableParams z).length ∧
      GradNetWrtXByList.construct z x y = [∑ p, ∑ q, FW.matmul x y p q]) ∧
    GradNetWrtXByList.construct Net.zInit xEx yEx = [(21.536 : ℚ)] := by
  constructor
  · intro m k n z x y
    exact ⟨rfl, gradByList_eq z x y⟩
  · rw [gradByList_eq]
    norm_num [FW.matmul, Matrix.mul_apply, xEx, yEx, Fin.sum_univ_succ, Matrix.cons_val_zero,
      Matrix.cons_val_one, Matrix.head_cons]

/-- C4: every function defined by the repository is extensionally equal to a direct
composition of the external framework's operations: `Net.construct`, the gradient
wrappers, the LeNet5 forward pass (at the shape level) and both `DatasetGenerator`
methods each coincide with the corresponding composition of `FW` operations. -/
theorem repo_functions_are_framework_compositions :
    (∀ (m k n : Nat), @Net.construct m k n = @SpecComp.net m k n) ∧
    (∀ (m k n : Nat), @GradNetWrtX.construct m k n = @SpecComp.gradNetWrtX m k n) ∧
    (∀ (m k n : Nat) (z : ℚ) (x : Matrix (Fin m) (Fin k) ℚ) (y : Matrix (Fin k) (Fin n) ℚ)
        (s : Matrix (Fin m) (Fin n) ℚ),
      GradNetWrtXSens.construct z x y s
        = FW.gradWithSens (fun a => FW.matmul (FW.mulBroadcast a z) y) x s) ∧
    (∀ (m k n : Nat) (z : ℚ) (x : Matrix (Fin m) (Fin k) ℚ) (y : Matrix (Fin k) (Fin n) ℚ),
      GradNetWrtXByList.construct z x y
        = (Net.trainableParams z).map
            (fun zp => FW.gradByParam (fun a => FW.matmul (FW.mulBroadcast x a) y) zp)) ∧
    LeNet5.constructShape = SpecComp.lenet5Shape ∧
    DatasetGenerator.len = SpecComp.datasetLen ∧
    DatasetGenerator.getitem = SpecComp.datasetGetitem := by
  exact ⟨fun m k n => rfl, fun m k n => rfl, fun m k n z x y s => rfl,
    fun m k n z x y => rfl, rfl, rfl, rfl⟩

/-- C5: for every batch size `N`, LeNet5 with `num_class=10, num_channel=1` is
shape-correct on input `(N, 1, 32, 32)` at every stage: conv1 yields `(N, 6, 28, 28)`,
pooling `(N, 6, 14, 14)`, conv2 `(N, 16, 10, 10)`, pooling `(N, 16, 5, 5)`, flatten
yields exactly `16*5*5 = 400` features matching fc1's input size, and the pipeline
returns shape `(N, 10)`. -/
theorem lenet5_shape_correct :
    ∀ N : Nat,
      FW.conv2dValidShape 1 6 5 (N, 1, 32, 32) = some (N, 6, 28, 28) ∧
      FW.maxPool2dShape 2 2 (N, 6, 28, 28) = some (N, 6, 14, 14) ∧
      FW.conv2dValidShape 6 16 5 (N, 6, 14, 14) = some (N, 16, 10, 10) ∧
      FW.maxPool2dShape 2 2 (N, 16, 10, 10) = some (N, 16, 5, 5) ∧
      FW.flattenShape (N, 16, 5, 5) = (N, 16 * 5 * 5) ∧
      FW.denseShape (16 * 5 * 5) 120 (N, 400) = some (N, 120) ∧
      LeNet5.constructShape 10 1 (N, 1, 32, 32) = some (N, 10) := by
  intro N
  refine ⟨?_, ?_, ?_, ?_, ?_, ?_, ?_⟩ <;> rfl

lemma FW.npGet_natIdx {n : Nat} {α : Type} (arr : Fin n → α) (j : Fin n) :
    FW.npGet arr (j.val : Int) = some (arr j) := by
  have h0 : ¬ ((j.val : Int) < 0) := by omega
  have hcond : 0 ≤ (j.val : Int) ∧ (j.val : Int) < (n : Int) := by
    have := j.isLt
    omega
  simp only [FW.npGet, if_neg h0]
  rw [dif_pos hcond]
  congr 1

lemma FW.npGet_negIdx {n : Nat} {α : Type} (arr : Fin n → α) (j : Fin n) :
    FW.npGet arr ((j.val : Int) - (n : Int)) = some (arr j) := by
  have hlt : (j.val : Int) - (n : Int) < 0 := by
    have := j.isLt
    omega
  have hcond : 0 ≤ (j.val : Int) - (n : Int) + (n : Int) ∧
      (j.val : Int) - (n : Int) + (n : Int) < (n : Int) := by
    have := j.isLt
    omega
  simp only [FW.npGet, if_pos hlt]
  rw [dif_pos hcond]
  congr 1
  apply congrArg arr
  apply Fin.ext
  simp only [Int.toNat_of_nonneg hcond.1]
  omega

lemma FW.npGet_isSome {n : Nat} {α : Type} (arr : Fin n → α) (i : Int) :
    (FW.npGet arr i).isSome = true ↔ (-(n : Int) ≤ i ∧ i < (n : Int)) := by
  by_cases hi : i < 0
  · simp only [FW.npGet, if_pos hi]
    split_ifs with h
    · simp only [Option.isSome_some, true_iff]
      omega
    · simp only [Option.isSome_none, Bool.false_eq_true, false_iff]
      omega
  · simp only [FW.npGet, if_neg hi]
    split_ifs with h
    · simp only [Option.isSome_some, true_iff]
      omega
    · simp only [Option.isSome_none, Bool.false_eq_true, false_iff]
      omega

/-- C6: `DatasetGenerator.__len__` always returns 5, and `__getitem__(i)` succeeds and
returns exactly the pair `(data[i], label[i])` from the arrays fixed at construction if
and only if the integer index `i` satisfies `-5 <= i <= 4` (a negative index selects row
`i + 5`, as numpy indexing does); every other integer index raises an index error
(modelled as `none`). -/
theorem datasetGenerator_len_getitem_correct :
    ∀ g : DatasetGenerator,
      DatasetGenerator.len g = 5 ∧
      (∀ j : Fin 5,
        DatasetGenerator.getitem g (j.val : Int) = some (g.data j, g.label j) ∧
        DatasetGenerator.getitem g ((j.val : Int) - 5) = some (g.data j, g.label j)) ∧
      (∀ i : Int, (DatasetGenerator.getitem g i).isSome = true ↔ (-5 ≤ i ∧ i ≤ 4)) := by
  intro g
  refine ⟨rfl, fun j => ⟨?_, ?_⟩, fun i => ?_⟩
  · simp [DatasetGenerator.getitem, FW.npGet_natIdx]
  · have hd : FW.npGet g.data ((j.val : Int) - 5) = some (g.data j) := by
      have h := FW.npGet_negIdx g.data j
      exact_mod_cast h
    have hl : FW.npGet g.label ((j.val : Int) - 5) = some (g.label j) := by
      have h := FW.npGet_negIdx g.label j
      exact_mod_cast h
    simp [DatasetGenerator.getitem, hd, hl]
  · have hd := FW.npGet_isSome g.data i
    have hl := FW.npGet_isSome g.label i
    push_cast at hd hl
    constructor
    · intro h
      cases hdv : FW.npGet g.data i with
      | none =>
        rw [DatasetGenerator.getitem, hdv] at h
        simp at h
      | some d =>
        have hsome : (FW.npGet g.data i).isSome = true := by
          rw [hdv]
          rfl
        have hb := hd.mp hsome
        omega
    · intro h
      have h1 : (FW.npGet g.data i).isSome = true := hd.mpr ⟨by omega, by omega⟩
      have h2 : (FW.npGet g.label i).isSome = true := hl.mpr ⟨by omega, by omega⟩
      obtain ⟨d, hdv⟩ := Option.isSome_iff_exists.mp h1
      obtain ⟨l, hlv⟩ := Option.isSome_iff_exists.mp h2
      simp [DatasetGenerator.getitem, hdv, hlv]

/-- C7: no function defined in the repository authors any error handling: each one is a
straight-line sequence of framework calls, so an error raised inside any framework call
surfaces unchanged from the repository-defined function (here: the `Except` result is
exactly the framework's error). -/
theorem framework_errors_propagate :
    (∀ (ε α β γ δ : Type) (mulZ : α → Except ε β) (matmulOp : β → γ → Except ε δ)
        (x : α) (y : γ) (e : ε),
      (mulZ x = Except.error e → Net.constructE mulZ matmulOp x y = Except.error e) ∧
      (∀ b, mulZ x = Except.ok b → matmulOp b y = Except.error e →
        Net.constructE mulZ matmulOp x y = Except.error e)) ∧
    (∀ (ε α β γ : Type) (gradientFunction : α → β → Except ε γ) (x : α) (y : β) (e : ε),
      gradientFunction x y = Except.error e →
        GradNetWrtX.constructE gradientFunction x y = Except.error e) ∧
    (∀ (ε α β : Type) (indexData : Int → Except ε α) (indexLabel : Int → Except ε β)
        (i : Int) (e : ε),
      (indexData i = Except.error e →
        DatasetGenerator.getitemE indexData indexLabel i = Except.error e) ∧
      (∀ d, indexData i = Except.ok d → indexLabel i = Except.error e →
        DatasetGenerator.getitemE indexData indexLabel i = Except.error e)) := by
  refine ⟨?_, ?_, ?_⟩
  · intro ε α β γ δ mulZ matmulOp x y e
    constructor
    · intro h
      simp only [Net.constructE]
      rw [h]
      rfl
    · intro b hb h2
      simp only [Net.constructE]
      rw [hb]
      exact h2
  · intro ε α β γ gradientFunction x y e h
    exact h
  · intro ε α β indexData indexLabel i e
    constructor
    · intro h
      simp only [DatasetGenerator.getitemE]
      rw [h]
      rfl
    · intro d hd h2
      simp only [DatasetGenerator.getitemE]
      rw [hd]
      show (indexLabel i).bind _ = Except.error e
      rw [h2]
      rfl

/-- Witness for C7: concrete fallible framework calls, each error surfacing unchanged. -/
theorem framework_errors_propagate_witness :
    Net.constructE (fun _ : Unit => (Except.error 7 : Except Nat Unit))
        (fun _ _ => Except.ok ()) () () = Except.error 7 ∧
    GradNetWrtX.constructE (fun _ _ => (Except.error 3 : Except Nat Unit)) () ()
        = Except.error 3 ∧
    DatasetGenerator.getitemE (fun _ => (Except.ok 0 : Except Nat Nat))
        (fun _ => (Except.error 9 : Except Nat Nat)) 0 = Except.error 9 :=
  ⟨(framework_errors_propagate.1 Nat Unit Unit Unit Unit (fun _ => Except.error 7)
      (fun _ _ => Except.ok ()) () () 7).1 rfl,
   framework_errors_propagate.2.1 Nat Unit Unit Unit (fun _ _ => Except.error 3) () () 3 rfl,
   (framework_errors_propagate.2.2 Nat Nat Nat (fun _ => Except.ok 0)
      (fun _ => Except.error 9) 0 9).2 0 rfl rfl⟩

/-- C8: the repository's control flow is branch-free: every repository-defined function
invokes the same fixed sequence of framework operations on any two completed runs,
regardless of the input values (for `__getitem__`, on any two runs that complete without
a framework index error). -/
theorem fixed_framework_call_sequence :
    (∀ (α β γ δ : Type) (mulZ : α → β) (matmulOp : β → γ → δ) (x1 x2 : α) (y1 y2 : γ),
      (Net.constructTraced mulZ matmulOp x1 y1).2 = (Net.constructTraced mulZ matmulOp x2 y2).2) ∧
    (∀ (α : Type) (conv1 conv2 fc1 fc2 fc3 relu maxPool2d flatten : α → α) (x1 x2 : α),
      (LeNet5.constructTraced conv1 conv2 fc1 fc2 fc3 relu maxPool2d flatten x1).2
        = (LeNet5.constructTraced conv1 conv2 fc1 fc2 fc3 relu maxPool2d flatten x2).2) ∧
    (∀ (ε α β : Type) (indexData : Int → Except ε α) (indexLabel : Int → Except ε β)
        (i1 i2 : Int),
      (DatasetGenerator.getitemTraced indexData indexLabel i1).1.isOk = true →
      (DatasetGenerator.getitemTraced indexData indexLabel i2).1.isOk = true →
      (DatasetGenerator.getitemTraced indexData indexLabel i1).2
        = (DatasetGenerator.getitemTraced indexData indexLabel i2).2) := by
  refine ⟨fun α β γ δ mulZ matmulOp x1 x2 y1 y2 => rfl,
    fun α conv1 conv2 fc1 fc2 fc3 relu maxPool2d flatten x1 x2 => rfl, ?_⟩
  intro ε α β indexData indexLabel i1 i2 h1 h2
  have t1 : (DatasetGenerator.getitemTraced indexData indexLabel i1).2
      = ["data.index", "label.index"] := by
    cases hd : indexData i1 with
    | error e =>
      exfalso
      simp [DatasetGenerator.getitemTraced, hd, Except.isOk, Except.toBool] at h1
    | ok d =>
      cases hl : indexLabel i1 with
      | error e => simp [DatasetGenerator.getitemTraced, hd, hl]
      | ok l => simp [DatasetGenerator.getitemTraced, hd, hl]
  have t2 : (DatasetGenerator.getitemTraced indexData indexLabel i2).2
      = ["data.index", "label.index"] := by
    cases hd : indexData i2 with
    | error e =>
      exfalso
      simp [DatasetGenerator.getitemTraced, hd, Except.isOk, Except.toBool] at h2
    | ok d =>
      cases hl : indexLabel i2 with
      | error e => simp [DatasetGenerator.getitemTraced, hd, hl]
      | ok l => simp [DatasetGenerator.getitemTraced, hd, hl]
  rw [t1, t2]

/-- Witness for C8: two successful `__getitem__` runs at different indices produce the
same framework-call trace. -/
theorem fixed_framework_call_sequence_witness :
    (DatasetGenerator.getitemTraced (fun _ => (Except.ok 0 : Except Unit Nat))
        (fun _ => (Except.ok 1 : Except Unit Nat)) 0).2
      = (DatasetGenerator.getitemTraced (fun _ => (Except.ok 0 : Except Unit Nat))
        (fun _ => (Except.ok 1 : Except Unit Nat)) 5).2 :=
  fixed_framework_call_sequence.2.2 Unit Nat Nat (fun _ => Except.ok 0)
    (fun _ => Except.ok 1) 0 5 rfl rfl

/-- C10: computing a gradient through `GradNetWrtX.construct` leaves the wrapped net's
state unchanged: after the call, the trainable parameter `z` holds exactly the value it
held before, the whole state is unchanged, and the returned gradient is the pure
gradient of the net at the current parameter value. -/
theorem grad_preserves_net_parameters :
    ∀ (m k n : Nat) (s : NetState) (x : Matrix (Fin m) (Fin k) ℚ)
      (y : Matrix (Fin k) (Fin n) ℚ),
      (GradNetWrtX.constructRun s x y).2.z = s.z ∧
      (GradNetWrtX.constructRun s x y).2 = s ∧
      (Net.constructRun s x y).2 = s ∧
      (GradNetWrtX.constructRun s x y).1 = GradNetWrtX.construct s.z x y := by
  intro m k n s x y
  exact ⟨rfl, rfl, rfl, rfl⟩
